import Mathlib

/-!
# Verification of the Diablo 4 build matcher

Shallow embedding of the build-matching and item-scoring engine of
`src/api/matchBuilds.ts`, together with the type declarations of
`types/build.ts` (profile-aware variant).  JavaScript numbers are modelled
as rationals (`ℚ`); JavaScript objects iterated by `Object.entries` are
modelled as association lists in insertion order.
-/

namespace D4

/-- An affix on an item: `{ name, value }` (from `types/item.ts`). -/
structure Affix where
  name : String
  value : ℚ
deriving DecidableEq, Repr

/-- An aspect on an item: `{ name, description?, value }` (from `types/item.ts`). -/
structure Aspect where
  name : String
  description : Option String
  value : ℚ
deriving DecidableEq, Repr

/-- A parsed item (from `types/item.ts`).  The slot-type is kept as a string. -/
structure Item where
  name : String
  type : String
  item_power : ℚ
  is_unique : Bool
  unique_id : Option String
  affixes : List Affix
  tempered_affixes : List Affix
  greater_affixes : List String
  aspect : Option Aspect
  class_restriction : Option String
deriving DecidableEq, Repr

/-- A weighted priority affix of a slot: `{ name, weight }` (from `types/build.ts`). -/
structure PriorityAffix where
  name : String
  weight : ℚ
deriving DecidableEq, Repr

/-- One slot's requirements (from `types/build.ts`).  The TypeScript fields are
optional; the code treats an absent field exactly like an empty list, so the
embedding uses plain lists. -/
structure SlotRequirements where
  slot : String
  priority_uniques : List String
  priority_aspects : List String
  priority_affixes : List PriorityAffix
  required_tempers : List String
deriving DecidableEq, Repr

/-- A named profile of a build: display name plus slot → requirements map,
in insertion order (profile-aware `types/build.ts`, `BuildProfile`). -/
structure BuildProfile where
  name : String
  gear : List (String × SlotRequirements)
deriving DecidableEq, Repr

/-- A build (profile-aware `types/build.ts`): metadata plus the ordered list of
profile names and the profile map. -/
structure Build where
  id : String
  name : String
  class_ : String
  category : String
  source_url : String
  tier : String
  tags : List String
  last_updated : String
  profile_order : List String
  profiles : List (String × BuildProfile)
deriving DecidableEq, Repr

/-- The qualitative item tier (`ItemTier` in `types/build.ts`). -/
inductive ItemTier where
  | bis
  | ancestral
  | starter
  | not_recommended
  | none
deriving DecidableEq, Repr

/-- A slot entry of a recommended loadout (`ItemWithScore` in `types/build.ts`). -/
structure ItemWithScore where
  item : Option Item
  score : ℚ
  maxScore : ℚ
  notes : String
  tier : ItemTier
deriving DecidableEq, Repr

/-- A missing critical item (`MissingItem` in `types/build.ts`).  The importance
union type `'high' | 'medium' | 'low'` is kept as a string. -/
structure MissingItem where
  slot : String
  item : String
  importance : String
deriving DecidableEq, Repr

/-- An upgrade suggestion (`UpgradePriority` in `types/build.ts`). -/
structure UpgradePriority where
  slot : String
  suggestion : String
deriving DecidableEq, Repr

/-- The per-profile match record (`ProfileMatch` in the profile-aware
`types/build.ts`). -/
structure ProfileMatch where
  profileName : String
  profileDisplayName : String
  score : ℚ
  maxScore : ℚ
  percentage : ℚ
  recommendedLoadout : List (String × ItemWithScore)
  missingCritical : List MissingItem
  upgradePriorities : List UpgradePriority
deriving DecidableEq, Repr

/-- The per-build match record (`BuildMatch` in the profile-aware
`types/build.ts`). -/
structure BuildMatch where
  buildId : String
  buildName : String
  tier : String
  profileMatches : List ProfileMatch
  bestProfile : String
  bestPercentage : ℚ
  sourceUrl : String
deriving DecidableEq, Repr

/-- The result record of `scoreItemForSlot` (`ScoredItem` in `matchBuilds.ts`). -/
structure ScoredItem where
  score : ℚ
  tier : ItemTier
  hasPriorityUnique : Bool
  uniqueRank : Option Nat
  matchingAffixes : Nat
  totalPriorityAffixes : Nat
  hasAspect : Bool
deriving DecidableEq, Repr

/-- The user's inventory: slot-type → list of items (`UserGear` in
`types/item.ts`), modelled as an association list. -/
def UserGear : Type := List (String × List Item)

/-- `String.prototype.toLowerCase()`, modelled character-wise (the identifiers
compared by the matcher are ASCII). -/
def jsToLower (s : String) : String :=
  ⟨s.data.map Char.toLower⟩

/-- `userGear[slot] || []`: an absent key yields the empty list; a present key
yields the stored list (a present empty array is truthy in JavaScript, so it is
also returned as is). -/
def lookupGear (userGear : UserGear) (slot : String) : List Item :=
  match List.lookup slot userGear with
  | some items => items
  | Option.none => []

/-- `TIER_THRESHOLDS.BIS` in `matchBuilds.ts`. -/
def TIER_THRESHOLDS_BIS : ℚ := 0.75

/-- `TIER_THRESHOLDS.ANCESTRAL` in `matchBuilds.ts`. -/
def TIER_THRESHOLDS_ANCESTRAL : ℚ := 0.40

/-- `TIER_THRESHOLDS.STARTER` in `matchBuilds.ts`. -/
def TIER_THRESHOLDS_STARTER : ℚ := 0.15

/-- `calculateSlotMaxScore` (`matchBuilds.ts` lines 217–243): 100 for a
non-empty unique list, 50 for a non-empty aspect list, `weight * 1.5` per
priority affix, 25 per required temper, plus 10 for the maximal item-power
bonus, floored at 10. -/
def calculateSlotMaxScore (requirements : SlotRequirements) : ℚ :=
  let max0 : ℚ := 0
  let max1 := if requirements.priority_uniques.length > 0 then max0 + 100 else max0
  let max2 := if requirements.priority_aspects.length > 0 then max1 + 50 else max1
  let max3 := requirements.priority_affixes.foldl (fun m affix => m + affix.weight * 1.5) max2
  let max4 := max3 + (requirements.required_tempers.length : ℚ) * 25
  let max5 := max4 + 10
  max max5 10

/-- The priority-unique lookup of `scoreItemForSlot` (`matchBuilds.ts` lines
126–138): a unique item with a truthy (non-empty) `unique_id` is searched
case-insensitively in `priority_uniques`; the result is the zero-based index of
the first match.  An empty-string `unique_id` is falsy in JavaScript and is
treated like a missing one. -/
def uniqueRankOf (item : Item) (requirements : SlotRequirements) : Option Nat :=
  if item.is_unique then
    match item.unique_id with
    | some uid =>
        if uid = "" then Option.none
        else requirements.priority_uniques.findIdx? (fun u => jsToLower u == jsToLower uid)
    | Option.none => Option.none
  else Option.none

/-- The unique bonus of `scoreItemForSlot`: `100 - matchIndex * 20` when a
priority unique matched, otherwise 0. -/
def uniqueBonus (item : Item) (requirements : SlotRequirements) : ℚ :=
  match uniqueRankOf item requirements with
  | some r => 100 - (r : ℚ) * 20
  | Option.none => 0

/-- The aspect check of `scoreItemForSlot` (`matchBuilds.ts` line 141):
case-sensitive membership of the aspect name in `priority_aspects`. -/
def hasAspectOf (item : Item) (requirements : SlotRequirements) : Bool :=
  match item.aspect with
  | some a => requirements.priority_aspects.contains a.name
  | Option.none => false

/-- The aspect bonus of `scoreItemForSlot`: 50 points when the aspect matched. -/
def aspectBonus (item : Item) (requirements : SlotRequirements) : ℚ :=
  if hasAspectOf item requirements then 50 else 0

/-- `allAffixes` in `scoreItemForSlot` (`matchBuilds.ts` lines 147–150): the
lower-cased names of the item's affixes followed by its tempered affixes. -/
def allAffixNames (item : Item) : List String :=
  item.affixes.map (fun a => jsToLower a.name) ++
    item.tempered_affixes.map (fun a => jsToLower a.name)

/-- Count of priority affixes matched by the item (the `matchingAffixes`
counter of the affix loop, `matchBuilds.ts` lines 152–164). -/
def matchingAffixCount (item : Item) (requirements : SlotRequirements) : Nat :=
  requirements.priority_affixes.countP
    (fun pa => (allAffixNames item).contains (jsToLower pa.name))

/-- The affix score of the affix loop: per matched priority affix its weight,
plus half its weight again when the affix is a greater affix on the item. -/
def affixBonus (item : Item) (requirements : SlotRequirements) : ℚ :=
  (requirements.priority_affixes.map (fun pa =>
    if (allAffixNames item).contains (jsToLower pa.name) then
      pa.weight +
        (if (item.greater_affixes.map jsToLower).contains (jsToLower pa.name) then
          pa.weight * 0.5
        else 0)
    else 0)).sum

/-- The temper score of `scoreItemForSlot` (`matchBuilds.ts` lines 167–171):
25 points per required temper matched case-insensitively by some tempered
affix. -/
def temperBonus (item : Item) (requirements : SlotRequirements) : ℚ :=
  (requirements.required_tempers.map (fun t =>
    if item.tempered_affixes.any (fun a => jsToLower a.name == t.toLower) then
      (25 : ℚ)
    else 0)).sum

/-- The item-power bonus (`matchBuilds.ts` line 188):
`Math.min(10, Math.max(0, (item_power - 800) / 12.5))`. -/
def ipBonus (item : Item) : ℚ :=
  min 10 (max 0 ((item.item_power - 800) / 12.5))

/-- `hasAnythingUseful` in `scoreItemForSlot` (`matchBuilds.ts` line 174). -/
def hasAnythingUseful (item : Item) (requirements : SlotRequirements) : Bool :=
  (uniqueRankOf item requirements).isSome || hasAspectOf item requirements ||
    decide (0 < matchingAffixCount item requirements)

/-- `scoreItemForSlot` (`matchBuilds.ts` lines 118–215).  The additive score is
the sum of the unique, aspect, affix and temper bonuses; if none of the three
match flags is set the function short-circuits to score 0 and tier
`not_recommended`; otherwise the item-power bonus is added and the tier cascade
is applied to the score as a fraction of `calculateSlotMaxScore`. -/
def scoreItemForSlot (item : Item) (requirements : SlotRequirements) : ScoredItem :=
  let totalPriorityAffixes := requirements.priority_affixes.length
  if hasAnythingUseful item requirements then
    let score := uniqueBonus item requirements + aspectBonus item requirements +
      affixBonus item requirements + temperBonus item requirements + ipBonus item
    let maxScore := calculateSlotMaxScore requirements
    let scorePercent := if maxScore > 0 then score / maxScore else 0
    let uniqueRank := uniqueRankOf item requirements
    let hasPriorityUnique := uniqueRank.isSome
    let tier : ItemTier :=
      if hasPriorityUnique = true ∧ uniqueRank = some 0 ∧
          scorePercent ≥ TIER_THRESHOLDS_BIS then
        ItemTier.bis
      else if hasPriorityUnique = true ∨ scorePercent ≥ TIER_THRESHOLDS_ANCESTRAL then
        ItemTier.ancestral
      else if scorePercent ≥ TIER_THRESHOLDS_STARTER ∨
          matchingAffixCount item requirements ≥ 1 then
        ItemTier.starter
      else
        ItemTier.not_recommended
    { score := score
      tier := tier
      hasPriorityUnique := hasPriorityUnique
      uniqueRank := uniqueRank
      matchingAffixes := matchingAffixCount item requirements
      totalPriorityAffixes := totalPriorityAffixes
      hasAspect := hasAspectOf item requirements }
  else
    { score := 0
      tier := ItemTier.not_recommended
      hasPriorityUnique := false
      uniqueRank := Option.none
      matchingAffixes := 0
      totalPriorityAffixes := totalPriorityAffixes
      hasAspect := false }

/-- `generateNotes` (`matchBuilds.ts` lines 245–280): tier indicator, affix
count detail, aspect note, joined with a dot separator. -/
def generateNotes (_item : Item) (scored : ScoredItem)
    (_requirements : SlotRequirements) : String :=
  let notes1 : List String :=
    match scored.tier with
    | ItemTier.bis => ["✅ BiS"]
    | ItemTier.ancestral =>
        if scored.hasPriorityUnique = true ∧ scored.uniqueRank ≠ some 0 then
          ["✅ Good unique"]
        else
          ["⚡ Ancestral viable"]
    | ItemTier.starter => ["⚡ Starter viable"]
    | ItemTier.not_recommended => ["❌ Not recommended"]
    | ItemTier.none => []
  let notes2 :=
    if scored.hasPriorityUnique = true ∧ scored.uniqueRank = some 0 then notes1
    else if scored.totalPriorityAffixes > 0 then
      notes1 ++
        [toString scored.matchingAffixes ++ "/" ++
          toString scored.totalPriorityAffixes ++ " affixes"]
    else notes1
  let notes3 := if scored.hasAspect then notes2 ++ ["has aspect"] else notes2
  String.intercalate " · " notes3

/-- `generateUpgradeSuggestion` (`matchBuilds.ts` lines 282–293). -/
def generateUpgradeSuggestion (requirements : SlotRequirements) : String :=
  match requirements.priority_uniques with
  | u :: _ => "Look for " ++ u
  | [] =>
    match requirements.priority_affixes with
    | [] => "Find a better item"
    | _ :: _ =>
        "Look for " ++
          String.intercalate " + "
            ((requirements.priority_affixes.take 2).map
              (fun a => a.name.replace "_" " "))

/-- The first-strict-improvement selection loop (`matchBuilds.ts` lines 56–66
for items; the spec's best-profile selection uses the same pattern): start with
no best, replace the current best exactly when the new element is strictly
greater under `f`, so the first of several tied maximal elements wins. -/
def selectBest {α : Type} (f : α → ℚ) (l : List α) : Option α :=
  l.foldl (fun acc x =>
    match acc with
    | Option.none => some x
    | some b => if f x > f b then some x else some b) Option.none

/-- The per-slot best-item loop (`matchBuilds.ts` lines 56–66): score every
candidate with `scoreItemForSlot` and keep the item with the strictly highest
score (scoring is pure, so storing the best scored record alongside the best
item is the same as rescoring the chosen item). -/
def pickBest (requirements : SlotRequirements) (userItems : List Item) : Option Item :=
  selectBest (fun it => (scoreItemForSlot it requirements).score) userItems

/-- The accumulator of the slot loop of the profile matcher
(`matchBuilds.ts` lines 24–28). -/
structure SlotAcc where
  totalScore : ℚ
  maxPossibleScore : ℚ
  recommendedLoadout : List (String × ItemWithScore)
  missingCritical : List MissingItem
  upgradePriorities : List UpgradePriority
deriving DecidableEq, Repr

/-- The body of the slot loop (`matchBuilds.ts` lines 30–91) for one slot:
the best score contributed, the loadout entry, the missing-critical entries and
the upgrade-priority entries produced by this slot. -/
def processSlot (userGear : UserGear) (slot : String)
    (requirements : SlotRequirements) :
    ℚ × ItemWithScore × List MissingItem × List UpgradePriority :=
  let slotMaxScore := calculateSlotMaxScore requirements
  let userItems := lookupGear userGear slot
  match userItems with
  | [] =>
      let missing : List MissingItem :=
        match requirements.priority_uniques with
        | [] => []
        | u :: _ => [{ slot := slot, item := u, importance := "high" }]
      (0,
        { item := Option.none, score := 0, maxScore := slotMaxScore,
          notes := "No item scanned", tier := ItemTier.none },
        missing, [])
  | _ :: _ =>
      match pickBest requirements userItems with
      | Option.none =>
          (0,
            { item := Option.none, score := 0, maxScore := slotMaxScore,
              notes := "Item does not match build",
              tier := ItemTier.not_recommended },
            [], [])
      | some bestItem =>
          let bestScored := scoreItemForSlot bestItem requirements
          let upgrades : List UpgradePriority :=
            if bestScored.tier = ItemTier.not_recommended ∨
                bestScored.tier = ItemTier.starter then
              [{ slot := slot, suggestion := generateUpgradeSuggestion requirements }]
            else []
          (bestScored.score,
            { item := some bestItem, score := bestScored.score,
              maxScore := slotMaxScore,
              notes := generateNotes bestItem bestScored requirements,
              tier := bestScored.tier },
            [], upgrades)

/-- The slot loop over all slots of a profile's gear map
(`matchBuilds.ts` lines 30–91), accumulating totals and the output records in
iteration order. -/
def processSlots (userGear : UserGear) :
    List (String × SlotRequirements) → SlotAcc
  | [] =>
      { totalScore := 0, maxPossibleScore := 0, recommendedLoadout := [],
        missingCritical := [], upgradePriorities := [] }
  | (slot, requirements) :: rest =>
      let r := processSlot userGear slot requirements
      let acc := processSlots userGear rest
      { totalScore := r.1 + acc.totalScore
        maxPossibleScore := calculateSlotMaxScore requirements + acc.maxPossibleScore
        recommendedLoadout := (slot, r.2.1) :: acc.recommendedLoadout
        missingCritical := r.2.2.1 ++ acc.missingCritical
        upgradePriorities := r.2.2.2 ++ acc.upgradePriorities }

/-- `Math.round(x)`: round to the nearest integer, half away from zero towards
positive infinity, i.e. `⌊x + 1/2⌋`. -/
def jsRound (x : ℚ) : ℚ :=
  ((⌊x + 1 / 2⌋ : ℤ) : ℚ)

/-- `Math.round(x * 10) / 10` (`matchBuilds.ts` line 101): round to one decimal
place. -/
def roundTo1 (x : ℚ) : ℚ :=
  jsRound (x * 10) / 10

/-- The profile matcher (spec §4.3; the slot loop and percentage computation of
`matchBuilds.ts` lines 24–106 applied to one profile's gear map).
Modelled from the spec: the profile-aware wiring (profile name and display
name in the `ProfileMatch`) has no implementation under `src/`, only its type
declarations; the per-slot logic is the code's. -/
def matchProfile (userGear : UserGear) (profileName : String)
    (profile : BuildProfile) : ProfileMatch :=
  let acc := processSlots userGear profile.gear
  let percentage : ℚ :=
    if acc.maxPossibleScore > 0 then
      acc.totalScore / acc.maxPossibleScore * 100
    else 0
  { profileName := profileName
    profileDisplayName := profile.name
    score := acc.totalScore
    maxScore := acc.maxPossibleScore
    percentage := roundTo1 percentage
    recommendedLoadout := acc.recommendedLoadout
    missingCritical := acc.missingCritical
    upgradePriorities := acc.upgradePriorities }

/-- Modelled from the spec: the per-build step of the build matcher (§4.4) has
no implementation under `src/` (only the `BuildMatch` type declaration and its
UI caller exist).  Run the profile matcher once per profile named in
`profile_order` (a name missing from the profile map contributes nothing), and
select as best the profile with the highest percentage, the first in
`profile_order` winning ties. -/
def matchBuild (userGear : UserGear) (build : Build) : BuildMatch :=
  let profileMatches := build.profile_order.filterMap (fun n =>
    (List.lookup n build.profiles).map (fun p => matchProfile userGear n p))
  match selectBest (fun pm => pm.percentage) profileMatches with
  | some best =>
      { buildId := build.id, buildName := build.name, tier := build.tier,
        profileMatches := profileMatches, bestProfile := best.profileName,
        bestPercentage := best.percentage, sourceUrl := build.source_url }
  | Option.none =>
      { buildId := build.id, buildName := build.name, tier := build.tier,
        profileMatches := profileMatches, bestProfile := "",
        bestPercentage := 0, sourceUrl := build.source_url }

/-- The sort comparator of `matchBuilds` (`matchBuilds.ts` lines 110–115) as a
boolean "may come first" relation: higher best percentage first, ties broken by
build name (the code's `localeCompare` is modelled as the lexicographic string
order). -/
def buildMatchLE (a b : BuildMatch) : Bool :=
  decide (a.bestPercentage > b.bestPercentage) ||
    (a.bestPercentage == b.bestPercentage && decide (a.buildName ≤ b.buildName))

/-- `matchBuilds` (spec §4.4 plus the sort of `matchBuilds.ts` lines 109–115):
one `BuildMatch` per build, sorted by best percentage descending with
alphabetical tie-break on the build name (stable merge sort, as
`Array.prototype.sort` is stable). -/
def matchBuilds (userGear : UserGear) (builds : List Build) : List BuildMatch :=
  (builds.map (matchBuild userGear)).mergeSort buildMatchLE

/-! ## Shared helper lemmas -/

theorem foldl_add_eq_add_sum {α : Type} (g : α → ℚ) :
    ∀ (l : List α) (c : ℚ), l.foldl (fun m a => m + g a) c = c + (l.map g).sum
  | [], c => by simp
  | a :: l, c => by
      rw [List.foldl_cons, foldl_add_eq_add_sum g l (c + g a)]
      simp [List.map_cons, List.sum_cons]
      ring

/-- Closed form of `calculateSlotMaxScore`. -/
theorem calculateSlotMaxScore_eq (requirements : SlotRequirements) :
    calculateSlotMaxScore requirements =
      max ((if requirements.priority_uniques = [] then 0 else 100) +
        (if requirements.priority_aspects = [] then 0 else 50) +
        ((requirements.priority_affixes.map (fun a => a.weight * 1.5)).sum) +
        25 * (requirements.required_tempers.length : ℚ) + 10) 10 := by
  rcases requirements with ⟨slot, us, asps, affs, ts⟩
  rcases us with _ | ⟨u, us⟩ <;> rcases asps with _ | ⟨a, asps⟩ <;>
    simp [calculateSlotMaxScore, foldl_add_eq_add_sum] <;>
    congr 1 <;> ring

/-- The slot max-score is bounded below by 10, hence strictly positive. -/
theorem calculateSlotMaxScore_pos (requirements : SlotRequirements) :
    0 < calculateSlotMaxScore requirements := by
  unfold calculateSlotMaxScore
  have h : (0 : ℚ) < 10 := by norm_num
  exact lt_of_lt_of_le h (le_max_right _ _)

/-! ## C6: the slot max-score formula and its positivity -/

/-- C6: `calculateSlotMaxScore` returns 100 (if any priority unique exists)
plus 50 (if any priority aspect exists) plus the sum of `weight × 1.5` over the
priority affixes plus 25 per required temper plus 10, floored at 10; the result
is always strictly positive, so the divisions by the max-score in the tier
computation and percentage computation never divide by zero. -/
theorem C6_slot_max_score (requirements : SlotRequirements) :
    calculateSlotMaxScore requirements =
      max ((if requirements.priority_uniques = [] then 0 else 100) +
        (if requirements.priority_aspects = [] then 0 else 50) +
        ((requirements.priority_affixes.map (fun a => a.weight * 1.5)).sum) +
        25 * (requirements.required_tempers.length : ℚ) + 10) 10 ∧
    0 < calculateSlotMaxScore requirements :=
  ⟨calculateSlotMaxScore_eq requirements, calculateSlotMaxScore_pos requirements⟩

/-! ## C2: the short-circuit rule -/

/-- C2: an item that matches no priority unique, no priority aspect and zero
priority affixes scores exactly 0 with tier `not_recommended` and all match
flags false/zero, regardless of its item power and of any required-temper
matches. -/
theorem C2_short_circuit (item : Item) (requirements : SlotRequirements)
    (hu : uniqueRankOf item requirements = Option.none)
    (ha : hasAspectOf item requirements = false)
    (hm : matchingAffixCount item requirements = 0) :
    scoreItemForSlot item requirements =
      { score := 0
        tier := ItemTier.not_recommended
        hasPriorityUnique := false
        uniqueRank := Option.none
        matchingAffixes := 0
        totalPriorityAffixes := requirements.priority_affixes.length
        hasAspect := false } := by
  unfold scoreItemForSlot hasAnythingUseful
  rw [hu, ha, hm]
  simp

/-- An item with a matching required temper and maximal item power but no
unique/aspect/affix overlap, used to exercise the short-circuit rule. -/
def temperOnlyItem : Item :=
  { name := "Temper Only", type := "helm", item_power := 925, is_unique := false,
    unique_id := Option.none, affixes := [],
    tempered_affixes := [{ name := "ranks_to_war_cry", value := 2 }],
    greater_affixes := [], aspect := Option.none,
    class_restriction := Option.none }

/-- Slot requirements with a priority affix and a required temper that
`temperOnlyItem` matches only in the temper. -/
def temperOnlyReqs : SlotRequirements :=
  { slot := "helm", priority_uniques := ["harlequin_crest"],
    priority_aspects := ["aspect_of_might"],
    priority_affixes := [{ name := "maximum_life", weight := 20 }],
    required_tempers := ["ranks_to_war_cry"] }

/-- Witness for C2: a power-925 item matching a required temper but nothing
else is short-circuited to score 0. -/
theorem C2_short_circuit_witness :
    (uniqueRankOf temperOnlyItem temperOnlyReqs = Option.none ∧
      hasAspectOf temperOnlyItem temperOnlyReqs = false ∧
      matchingAffixCount temperOnlyItem temperOnlyReqs = 0) ∧
    scoreItemForSlot temperOnlyItem temperOnlyReqs =
      { score := 0
        tier := ItemTier.not_recommended
        hasPriorityUnique := false
        uniqueRank := Option.none
        matchingAffixes := 0
        totalPriorityAffixes := temperOnlyReqs.priority_affixes.length
        hasAspect := false } :=
  ⟨⟨by decide, by decide, by decide⟩,
    C2_short_circuit temperOnlyItem temperOnlyReqs (by decide) (by decide) (by decide)⟩

/-! ## C3: the unique bonus -/

/-- A unique item whose `unique_id` is the empty string. -/
def emptyIdItem : Item :=
  { name := "Empty Id", type := "helm", item_power := 900, is_unique := true,
    unique_id := some "", affixes := [], tempered_affixes := [],
    greater_affixes := [], aspect := Option.none, class_restriction := Option.none }

/-- Slot requirements whose priority-unique list contains the empty string. -/
def emptyIdReqs : SlotRequirements :=
  { slot := "helm", priority_uniques := [""], priority_aspects := [],
    priority_affixes := [], required_tempers := [] }

/-- Counterexample for C3 as stated: `emptyIdItem` is unique and its
`unique_id` case-insensitively equals the rank-0 entry of `priority_uniques`
(both are the empty string), yet the code records no priority-unique match and
adds no bonus, because `item.unique_id` is falsy in JavaScript when it is the
empty string. -/
theorem C3_counterexample :
    (emptyIdItem.is_unique = true ∧ emptyIdItem.unique_id = some "" ∧
      emptyIdReqs.priority_uniques.findIdx?
        (fun u => jsToLower u == jsToLower "") = some 0) ∧
    ¬ ((scoreItemForSlot emptyIdItem emptyIdReqs).hasPriorityUnique = true ∧
        (scoreItemForSlot emptyIdItem emptyIdReqs).uniqueRank = some 0 ∧
        uniqueBonus emptyIdItem emptyIdReqs = 100) := by
  decide

/-- C3 (amended): for a unique item with a non-empty `unique_id` whose first
case-insensitive match in `priority_uniques` is at zero-based rank `r`,
`scoreItemForSlot` records the match, adds exactly `100 − 20·r` points for the
unique bonus on top of the other bonuses, and never clamps the bonus at zero,
so the contribution is negative for `r ≥ 6`. -/
theorem C3_unique_bonus (item : Item) (requirements : SlotRequirements)
    (uid : String) (r : ℕ)
    (hu : item.is_unique = true) (hid : item.unique_id = some uid)
    (hne : uid ≠ "")
    (hfind : requirements.priority_uniques.findIdx?
      (fun u => jsToLower u == jsToLower uid) = some r) :
    (scoreItemForSlot item requirements).hasPriorityUnique = true ∧
    (scoreItemForSlot item requirements).uniqueRank = some r ∧
    uniqueBonus item requirements = 100 - 20 * (r : ℚ) ∧
    (scoreItemForSlot item requirements).score =
      (100 - 20 * (r : ℚ)) + (aspectBonus item requirements +
        affixBonus item requirements + temperBonus item requirements +
        ipBonus item) ∧
    (6 ≤ r → uniqueBonus item requirements < 0) := by
  have hrank : uniqueRankOf item requirements = some r := by
    simp [uniqueRankOf, hu, hid, hne, hfind]
  have huse : hasAnythingUseful item requirements = true := by
    simp [hasAnythingUseful, hrank]
  have hub : uniqueBonus item requirements = 100 - (r : ℚ) * 20 := by
    simp [uniqueBonus, hrank]
  refine ⟨?_, ?_, ?_, ?_, ?_⟩
  · simp [scoreItemForSlot, huse, hrank]
  · simp [scoreItemForSlot, huse, hrank]
  · rw [hub]; ring
  · simp only [scoreItemForSlot, huse, if_true]
    rw [hub]; ring
  · intro h6
    rw [hub]
    have h6q : (6 : ℚ) ≤ (r : ℚ) := by exact_mod_cast h6
    linarith

/-- A unique item matching the seventh (rank-6) entry of a priority-unique
list, demonstrating the negative unique bonus. -/
def rank6Item : Item :=
  { name := "Rank Six", type := "amulet", item_power := 800, is_unique := true,
    unique_id := some "U6", affixes := [], tempered_affixes := [],
    greater_affixes := [], aspect := Option.none, class_restriction := Option.none }

/-- Requirements with a seven-entry priority-unique list whose last entry
matches `rank6Item` case-insensitively. -/
def rank6Reqs : SlotRequirements :=
  { slot := "amulet",
    priority_uniques := ["u0", "u1", "u2", "u3", "u4", "u5", "u6"],
    priority_aspects := [], priority_affixes := [], required_tempers := [] }

/-- Witness for the amended C3 at rank 6. -/
theorem C3_unique_bonus_witness :
    (rank6Item.is_unique = true ∧ rank6Item.unique_id = some "U6" ∧
      "U6" ≠ "" ∧
      rank6Reqs.priority_uniques.findIdx?
        (fun u => jsToLower u == jsToLower "U6") = some 6) ∧
    ((scoreItemForSlot rank6Item rank6Reqs).hasPriorityUnique = true ∧
      (scoreItemForSlot rank6Item rank6Reqs).uniqueRank = some 6 ∧
      uniqueBonus rank6Item rank6Reqs = 100 - 20 * ((6 : ℕ) : ℚ) ∧
      (scoreItemForSlot rank6Item rank6Reqs).score =
        (100 - 20 * ((6 : ℕ) : ℚ)) + (aspectBonus rank6Item rank6Reqs +
          affixBonus rank6Item rank6Reqs + temperBonus rank6Item rank6Reqs +
          ipBonus rank6Item) ∧
      (6 ≤ 6 → uniqueBonus rank6Item rank6Reqs < 0)) :=
  ⟨⟨by decide, by decide, by decide, by decide⟩,
    C3_unique_bonus rank6Item rank6Reqs "U6" 6 (by decide) (by decide)
      (by decide) (by decide)⟩

/-! ## C4: the tier cascade -/

/-- C4: for every item that survives the short-circuit, the assigned tier
follows the cascade on the final score as a fraction of the slot max-score:
`bis` when the rank-0 priority unique matched and the fraction is at least
0.75; else `ancestral` when a priority unique matched or the fraction is at
least 0.40; else `starter` when the fraction is at least 0.15 or at least one
priority affix matched; else `not_recommended`. -/
theorem C4_tier_cascade (item : Item) (requirements : SlotRequirements)
    (h : hasAnythingUseful item requirements = true) :
    (scoreItemForSlot item requirements).tier =
      (if (scoreItemForSlot item requirements).hasPriorityUnique = true ∧
          (scoreItemForSlot item requirements).uniqueRank = some 0 ∧
          (scoreItemForSlot item requirements).score /
            calculateSlotMaxScore requirements ≥ 0.75 then
        ItemTier.bis
      else if (scoreItemForSlot item requirements).hasPriorityUnique = true ∨
          (scoreItemForSlot item requirements).score /
            calculateSlotMaxScore requirements ≥ 0.40 then
        ItemTier.ancestral
      else if (scoreItemForSlot item requirements).score /
            calculateSlotMaxScore requirements ≥ 0.15 ∨
          (scoreItemForSlot item requirements).matchingAffixes ≥ 1 then
        ItemTier.starter
      else ItemTier.not_recommended) := by
  have hpos := calculateSlotMaxScore_pos requirements
  simp only [scoreItemForSlot, h, if_true, gt_iff_lt, hpos, ite_true,
    TIER_THRESHOLDS_BIS, TIER_THRESHOLDS_ANCESTRAL, TIER_THRESHOLDS_STARTER]

/-- A rank-0 unique item with all required tempers and well above 75% of the
slot max-score. -/
def bisItem : Item :=
  { name := "Shako", type := "helm", item_power := 925, is_unique := true,
    unique_id := some "Harlequin_Crest",
    affixes := [{ name := "maximum_life", value := 450 },
                { name := "cooldown_reduction", value := 10 }],
    tempered_affixes := [{ name := "ranks_to_war_cry", value := 2 }],
    greater_affixes := ["maximum_life"],
    aspect := Option.none, class_restriction := Option.none }

/-- Helm requirements matched by `bisItem`. -/
def bisReqs : SlotRequirements :=
  { slot := "helm", priority_uniques := ["harlequin_crest", "other_unique"],
    priority_aspects := [],
    priority_affixes := [{ name := "maximum_life", weight := 20 },
                         { name := "intelligence", weight := 15 }],
    required_tempers := ["ranks_to_war_cry"] }

/-- Witness for C4: `bisItem` survives the short-circuit and its tier follows
the cascade (concretely, `bis`). -/
theorem C4_tier_cascade_witness :
    hasAnythingUseful bisItem bisReqs = true ∧
    (scoreItemForSlot bisItem bisReqs).tier =
      (if (scoreItemForSlot bisItem bisReqs).hasPriorityUnique = true ∧
          (scoreItemForSlot bisItem bisReqs).uniqueRank = some 0 ∧
          (scoreItemForSlot bisItem bisReqs).score /
            calculateSlotMaxScore bisReqs ≥ 0.75 then
        ItemTier.bis
      else if (scoreItemForSlot bisItem bisReqs).hasPriorityUnique = true ∨
          (scoreItemForSlot bisItem bisReqs).score /
            calculateSlotMaxScore bisReqs ≥ 0.40 then
        ItemTier.ancestral
      else if (scoreItemForSlot bisItem bisReqs).score /
            calculateSlotMaxScore bisReqs ≥ 0.15 ∨
          (scoreItemForSlot bisItem bisReqs).matchingAffixes ≥ 1 then
        ItemTier.starter
      else ItemTier.not_recommended) :=
  ⟨by decide, C4_tier_cascade bisItem bisReqs (by decide)⟩

/-! ## C9: monotonicity of the slot max-score -/

/-- Requirements holding only a priority unique, used to refute unqualified
monotonicity. -/
def monoBaseReqs : SlotRequirements :=
  { slot := "helm", priority_uniques := ["harlequin_crest"],
    priority_aspects := [], priority_affixes := [], required_tempers := [] }

/-- Counterexample for C9 as stated: appending a priority affix of weight
`-100` drops the slot max-score from 110 to the floor 10. -/
theorem C9_counterexample :
    calculateSlotMaxScore
        { monoBaseReqs with
          priority_affixes := monoBaseReqs.priority_affixes ++
            [{ name := "bad", weight := -100 }] } <
      calculateSlotMaxScore monoBaseReqs := by
  rw [calculateSlotMaxScore_eq, calculateSlotMaxScore_eq]
  norm_num [monoBaseReqs, max_def]

/-- C9 (amended): `calculateSlotMaxScore` never decreases when a priority affix
of non-negative weight is appended, when an existing affix's weight is
increased, when a priority-uniques list is added where there was none, when a
priority-aspects list is added where there was none, or when a required temper
is appended. -/
theorem C9_max_score_monotone :
    (∀ (r : SlotRequirements) (a : PriorityAffix), 0 ≤ a.weight →
      calculateSlotMaxScore r ≤
        calculateSlotMaxScore
          { r with priority_affixes := r.priority_affixes ++ [a] }) ∧
    (∀ (r : SlotRequirements) (l1 l2 : List PriorityAffix) (a a' : PriorityAffix),
      a.weight ≤ a'.weight →
      calculateSlotMaxScore { r with priority_affixes := l1 ++ a :: l2 } ≤
        calculateSlotMaxScore { r with priority_affixes := l1 ++ a' :: l2 }) ∧
    (∀ (r : SlotRequirements) (us : List String), r.priority_uniques = [] →
      calculateSlotMaxScore r ≤
        calculateSlotMaxScore { r with priority_uniques := us }) ∧
    (∀ (r : SlotRequirements) (asps : List String), r.priority_aspects = [] →
      calculateSlotMaxScore r ≤
        calculateSlotMaxScore { r with priority_aspects := asps }) ∧
    (∀ (r : SlotRequirements) (t : String),
      calculateSlotMaxScore r ≤
        calculateSlotMaxScore
          { r with required_tempers := r.required_tempers ++ [t] }) := by
  refine ⟨?_, ?_, ?_, ?_, ?_⟩
  · intro r a ha
    rw [calculateSlotMaxScore_eq, calculateSlotMaxScore_eq]
    apply max_le_max _ le_rfl
    simp only [List.map_append, List.sum_append, List.map_cons, List.sum_cons,
      List.map_nil, List.sum_nil]
    have : 0 ≤ a.weight * 1.5 := by nlinarith
    linarith
  · intro r l1 l2 a a' ha
    rw [calculateSlotMaxScore_eq, calculateSlotMaxScore_eq]
    apply max_le_max _ le_rfl
    simp only [List.map_append, List.sum_append, List.map_cons, List.sum_cons]
    have : a.weight * 1.5 ≤ a'.weight * 1.5 := by nlinarith
    linarith
  · intro r us hr
    rw [calculateSlotMaxScore_eq, calculateSlotMaxScore_eq]
    apply max_le_max _ le_rfl
    simp only [hr]
    rcases us with _ | ⟨u, us⟩ <;> simp
  · intro r asps hr
    rw [calculateSlotMaxScore_eq, calculateSlotMaxScore_eq]
    apply max_le_max _ le_rfl
    simp only [hr]
    rcases asps with _ | ⟨a, asps⟩ <;> simp
  · intro r t
    rw [calculateSlotMaxScore_eq, calculateSlotMaxScore_eq]
    apply max_le_max _ le_rfl
    simp only [List.length_append, List.length_cons, List.length_nil]
    push_cast
    linarith

/-- Witness for the amended C9: each monotonicity conjunct at a concrete
input. -/
theorem C9_max_score_monotone_witness :
    ((0 : ℚ) ≤ 20 ∧
      calculateSlotMaxScore monoBaseReqs ≤
        calculateSlotMaxScore
          { monoBaseReqs with
            priority_affixes := monoBaseReqs.priority_affixes ++
              [{ name := "good", weight := 20 }] }) ∧
    ((5 : ℚ) ≤ 20 ∧
      calculateSlotMaxScore
          { monoBaseReqs with
            priority_affixes := [] ++ ({ name := "a", weight := 5 } : PriorityAffix) :: [] } ≤
        calculateSlotMaxScore
          { monoBaseReqs with
            priority_affixes := [] ++ ({ name := "a", weight := 20 } : PriorityAffix) :: [] }) ∧
    (emptyIdReqs.priority_aspects = [] ∧
      calculateSlotMaxScore emptyIdReqs ≤
        calculateSlotMaxScore { emptyIdReqs with priority_aspects := ["x"] }) ∧
    (calculateSlotMaxScore monoBaseReqs ≤
      calculateSlotMaxScore
        { monoBaseReqs with
          required_tempers := monoBaseReqs.required_tempers ++ ["t"] }) := by
  refine ⟨⟨by norm_num, ?_⟩, ⟨by norm_num, ?_⟩, ⟨by decide, ?_⟩, ?_⟩
  · exact C9_max_score_monotone.1 monoBaseReqs { name := "good", weight := 20 }
      (by norm_num)
  · exact C9_max_score_monotone.2.1 monoBaseReqs [] []
      { name := "a", weight := 5 } { name := "a", weight := 20 } (by norm_num)
  · exact C9_max_score_monotone.2.2.2.1 emptyIdReqs ["x"] (by decide)
  · exact C9_max_score_monotone.2.2.2.2 monoBaseReqs "t"

/-! ## The first-strict-improvement selection loop, characterised -/

/-- Invariant of the selection fold once a current best `b` exists: the result
is either `b` itself (everything later is no better) or the first later element
that strictly improves on everything before it. -/
theorem selectBest_go_spec {α : Type} (f : α → ℚ) :
    ∀ (xs : List α) (b : α),
      ∃ r, xs.foldl (fun acc x =>
          match acc with
          | Option.none => some x
          | some c => if f x > f c then some x else some c) (some b) = some r ∧
        ((r = b ∧ ∀ x ∈ xs, f x ≤ f b) ∨
          (∃ l1 l2, xs = l1 ++ r :: l2 ∧ f b < f r ∧ (∀ x ∈ l1, f x < f r) ∧
            (∀ x ∈ l2, f x ≤ f r)))
  | [], b => ⟨b, rfl, Or.inl ⟨rfl, by simp⟩⟩
  | y :: ys, b => by
      rw [List.foldl_cons]
      show ∃ r, ys.foldl _ (if f y > f b then some y else some b) = some r ∧ _
      by_cases h : f y > f b
      · rw [if_pos h]
        obtain ⟨r, hr, hcase⟩ := selectBest_go_spec f ys y
        refine ⟨r, hr, Or.inr ?_⟩
        rcases hcase with ⟨rfl, hall⟩ | ⟨l1, l2, hys, hlt, h1, h2⟩
        · exact ⟨[], ys, rfl, h, by simp, hall⟩
        · refine ⟨y :: l1, l2, by rw [hys, List.cons_append], lt_trans h hlt, ?_, h2⟩
          intro x hx
          rcases List.mem_cons.mp hx with rfl | hx1
          · exact hlt
          · exact h1 x hx1
      · rw [if_neg h]
        have hle : f y ≤ f b := not_lt.mp h
        obtain ⟨r, hr, hcase⟩ := selectBest_go_spec f ys b
        refine ⟨r, hr, ?_⟩
        rcases hcase with ⟨rfl, hall⟩ | ⟨l1, l2, hys, hlt, h1, h2⟩
        · refine Or.inl ⟨rfl, ?_⟩
          intro x hx
          rcases List.mem_cons.mp hx with rfl | hx1
          · exact hle
          · exact hall x hx1
        · refine Or.inr ⟨y :: l1, l2, by rw [hys, List.cons_append], hlt, ?_, h2⟩
          intro x hx
          rcases List.mem_cons.mp hx with rfl | hx1
          · exact lt_of_le_of_lt hle hlt
          · exact h1 x hx1

/-- `selectBest` on a non-empty list returns an element whose `f`-value is the
strict maximum over every earlier element and a weak maximum over every later
one: the first of the tied maximal elements wins. -/
theorem selectBest_spec {α : Type} (f : α → ℚ) (l : List α) (h : l ≠ []) :
    ∃ l1 r l2, l = l1 ++ r :: l2 ∧ selectBest f l = some r ∧
      (∀ x ∈ l1, f x < f r) ∧ (∀ x ∈ l2, f x ≤ f r) := by
  match l, h with
  | x :: xs, _ =>
    obtain ⟨r, hr, hcase⟩ := selectBest_go_spec f xs x
    have hsel : selectBest f (x :: xs) = some r := by
      unfold selectBest
      rw [List.foldl_cons]
      exact hr
    rcases hcase with ⟨rfl, hall⟩ | ⟨l1, l2, hxs, hlt, h1, h2⟩
    · exact ⟨[], r, xs, rfl, hsel, by simp, hall⟩
    · refine ⟨x :: l1, r, l2, by rw [hxs, List.cons_append], hsel, ?_, h2⟩
      intro z hz
      rcases List.mem_cons.mp hz with rfl | hz1
      · exact hlt
      · exact h1 z hz1

/-- `selectBest` returns an element of its input list. -/
theorem selectBest_mem {α : Type} (f : α → ℚ) (l : List α) (r : α)
    (h : selectBest f l = some r) : r ∈ l := by
  rcases l with _ | ⟨x, xs⟩
  · simp [selectBest] at h
  · obtain ⟨l1, r', l2, heq, hsel, _, _⟩ := selectBest_spec f (x :: xs) (by simp)
    rw [hsel] at h
    cases h
    rw [heq]
    exact List.mem_append.mpr (Or.inr (List.mem_cons_self _ _))

/-! ## The slot loop, summed -/

/-- The total score accumulated by the slot loop is the sum of the per-slot
best scores. -/
theorem processSlots_totalScore (userGear : UserGear) :
    ∀ gear : List (String × SlotRequirements),
      (processSlots userGear gear).totalScore =
        (gear.map (fun sr => (processSlot userGear sr.1 sr.2).1)).sum
  | [] => by simp [processSlots]
  | (s, r) :: rest => by
      simp [processSlots, processSlots_totalScore userGear rest]

/-- The max score accumulated by the slot loop is the sum of the per-slot
max-scores. -/
theorem processSlots_maxScore (userGear : UserGear) :
    ∀ gear : List (String × SlotRequirements),
      (processSlots userGear gear).maxPossibleScore =
        (gear.map (fun sr => calculateSlotMaxScore sr.2)).sum
  | [] => by simp [processSlots]
  | (s, r) :: rest => by
      simp [processSlots, processSlots_maxScore userGear rest]

/-- Rounding zero to one decimal place gives zero. -/
theorem roundTo1_zero : roundTo1 0 = 0 := by
  norm_num [roundTo1, jsRound]

/-! ## C7: per-slot best-item selection and the profile percentage -/

/-- C7: on a non-empty candidate list the slot loop keeps the item with the
strictly highest score, the first encountered winning ties; and the profile's
reported score and max-score are the per-slot sums, with the percentage equal
to `round₁(score / maxScore × 100)` and 0 when the max-score is 0. -/
theorem C7_best_item_and_percentage (requirements : SlotRequirements)
    (userItems : List Item) (userGear : UserGear) (profileName : String)
    (profile : BuildProfile) (h : userItems ≠ []) :
    (∃ l1 best l2, userItems = l1 ++ best :: l2 ∧
      pickBest requirements userItems = some best ∧
      (∀ it ∈ l1, (scoreItemForSlot it requirements).score <
        (scoreItemForSlot best requirements).score) ∧
      (∀ it ∈ l2, (scoreItemForSlot it requirements).score ≤
        (scoreItemForSlot best requirements).score)) ∧
    ((matchProfile userGear profileName profile).score =
        (profile.gear.map (fun sr => (processSlot userGear sr.1 sr.2).1)).sum ∧
      (matchProfile userGear profileName profile).maxScore =
        (profile.gear.map (fun sr => calculateSlotMaxScore sr.2)).sum ∧
      (matchProfile userGear profileName profile).percentage =
        (if 0 < (matchProfile userGear profileName profile).maxScore then
          roundTo1 ((matchProfile userGear profileName profile).score /
            (matchProfile userGear profileName profile).maxScore * 100)
        else 0)) := by
  constructor
  · obtain ⟨l1, best, l2, heq, hsel, h1, h2⟩ :=
      selectBest_spec (fun it => (scoreItemForSlot it requirements).score)
        userItems h
    exact ⟨l1, best, l2, heq, hsel, h1, h2⟩
  · refine ⟨?_, ?_, ?_⟩
    · simp [matchProfile, processSlots_totalScore]
    · simp [matchProfile, processSlots_maxScore]
    · by_cases hpos : 0 < (processSlots userGear profile.gear).maxPossibleScore
      · simp [matchProfile, hpos]
      · simp [matchProfile, hpos, roundTo1_zero]

/-- A second helm item, strictly worse than `bisItem` for `bisReqs`. -/
def lesserItem : Item :=
  { name := "Lesser Helm", type := "helm", item_power := 800, is_unique := false,
    unique_id := Option.none,
    affixes := [{ name := "maximum_life", value := 100 }],
    tempered_affixes := [], greater_affixes := [],
    aspect := Option.none, class_restriction := Option.none }

/-- A one-slot profile requiring `bisReqs` on the helm. -/
def helmProfile : BuildProfile :=
  { name := "Ancestral", gear := [("helm", bisReqs)] }

/-- A user inventory with two helm candidates. -/
def helmGear : UserGear :=
  [("helm", [lesserItem, bisItem])]

/-- Witness for C7 at a two-candidate helm slot. -/
theorem C7_best_item_and_percentage_witness :
    ([lesserItem, bisItem] ≠ ([] : List Item)) ∧
    ((∃ l1 best l2, [lesserItem, bisItem] = l1 ++ best :: l2 ∧
      pickBest bisReqs [lesserItem, bisItem] = some best ∧
      (∀ it ∈ l1, (scoreItemForSlot it bisReqs).score <
        (scoreItemForSlot best bisReqs).score) ∧
      (∀ it ∈ l2, (scoreItemForSlot it bisReqs).score ≤
        (scoreItemForSlot best bisReqs).score)) ∧
    ((matchProfile helmGear "ancestral" helmProfile).score =
        (helmProfile.gear.map (fun sr => (processSlot helmGear sr.1 sr.2).1)).sum ∧
      (matchProfile helmGear "ancestral" helmProfile).maxScore =
        (helmProfile.gear.map (fun sr => calculateSlotMaxScore sr.2)).sum ∧
      (matchProfile helmGear "ancestral" helmProfile).percentage =
        (if 0 < (matchProfile helmGear "ancestral" helmProfile).maxScore then
          roundTo1 ((matchProfile helmGear "ancestral" helmProfile).score /
            (matchProfile helmGear "ancestral" helmProfile).maxScore * 100)
        else 0))) :=
  ⟨by decide,
    C7_best_item_and_percentage bisReqs [lesserItem, bisItem] helmGear
      "ancestral" helmProfile (by decide)⟩

/-! ## C1: one ProfileMatch per profile and best-profile selection -/

/-- The profile matches of a `BuildMatch` are the filterMap over
`profile_order`. -/
theorem matchBuild_profileMatches (userGear : UserGear) (build : Build) :
    (matchBuild userGear build).profileMatches =
      build.profile_order.filterMap (fun n =>
        (List.lookup n build.profiles).map
          (fun p => matchProfile userGear n p)) := by
  unfold matchBuild
  rcases hsel : selectBest (fun pm => pm.percentage)
      (build.profile_order.filterMap (fun n =>
        (List.lookup n build.profiles).map
          (fun p => matchProfile userGear n p))) with _ | best <;>
    simp [hsel]

/-- When the best-profile selection succeeds, the `BuildMatch` records that
profile's name and percentage. -/
theorem matchBuild_best (userGear : UserGear) (build : Build)
    (best : ProfileMatch)
    (hsel : selectBest (fun pm => pm.percentage)
      (build.profile_order.filterMap (fun n =>
        (List.lookup n build.profiles).map
          (fun p => matchProfile userGear n p))) = some best) :
    (matchBuild userGear build).bestProfile = best.profileName ∧
    (matchBuild userGear build).bestPercentage = best.percentage := by
  unfold matchBuild
  simp [hsel]

/-- The profile matcher labels its result with the profile name it was run
for. -/
theorem matchProfile_profileName (userGear : UserGear) (n : String)
    (p : BuildProfile) : (matchProfile userGear n p).profileName = n :=
  rfl

/-- Under total lookup success, the filterMap produces exactly one
`ProfileMatch` per name of `profile_order`, in order. -/
theorem filterMap_profileName (userGear : UserGear)
    (profiles : List (String × BuildProfile)) :
    ∀ order : List String,
      (∀ n ∈ order, (List.lookup n profiles).isSome = true) →
      (order.filterMap (fun n =>
        (List.lookup n profiles).map
          (fun p => matchProfile userGear n p))).map ProfileMatch.profileName =
        order
  | [], _ => by simp
  | n :: rest, h => by
      obtain ⟨p, hp⟩ := Option.isSome_iff_exists.mp (h n (List.mem_cons_self n rest))
      have ih := filterMap_profileName userGear profiles rest
        (fun m hm => h m (List.mem_cons_of_mem n hm))
      simp only [List.filterMap_cons, hp, Option.map_some', List.map_cons,
        matchProfile_profileName, ih]

/-- C1: with every profile named in `profile_order` present in the profile
map, `matchBuild` produces one `ProfileMatch` per profile (each the result of
the profile matcher, in order); the best profile is one of them, with the
highest percentage, the first winning ties; and the `BuildMatch` records its
name and percentage.  `matchBuilds` itself is a permutation (re-ranking) of
the per-build results. -/
theorem C1_build_matcher (userGear : UserGear) (build : Build)
    (h : ∀ n ∈ build.profile_order,
      (List.lookup n build.profiles).isSome = true) :
    ((matchBuild userGear build).profileMatches.map ProfileMatch.profileName =
        build.profile_order ∧
      ∀ pm ∈ (matchBuild userGear build).profileMatches, ∃ p,
        List.lookup pm.profileName build.profiles = some p ∧
        pm = matchProfile userGear pm.profileName p) ∧
    (build.profile_order ≠ [] →
      ∃ l1 best l2,
        (matchBuild userGear build).profileMatches = l1 ++ best :: l2 ∧
        (∀ q ∈ l1, q.percentage < best.percentage) ∧
        (∀ q ∈ l2, q.percentage ≤ best.percentage) ∧
        (matchBuild userGear build).bestProfile = best.profileName ∧
        (matchBuild userGear build).bestPercentage = best.percentage) ∧
    (∀ builds : List Build,
      (matchBuilds userGear builds).Perm (builds.map (matchBuild userGear))) := by
  have hpm := matchBuild_profileMatches userGear build
  refine ⟨⟨?_, ?_⟩, ?_, ?_⟩
  · rw [hpm]
    exact filterMap_profileName userGear build.profiles build.profile_order h
  · intro pm hmem
    rw [hpm] at hmem
    obtain ⟨n, hn, hsome⟩ := List.mem_filterMap.mp hmem
    obtain ⟨p, hp, hmp⟩ := Option.map_eq_some'.mp hsome
    have hname : pm.profileName = n := by rw [← hmp]; rfl
    exact ⟨p, by rw [hname]; exact hp, by rw [hname, ← hmp]⟩
  · intro horder
    have hnames := filterMap_profileName userGear build.profiles
      build.profile_order h
    have hne : build.profile_order.filterMap (fun n =>
        (List.lookup n build.profiles).map
          (fun p => matchProfile userGear n p)) ≠ [] := by
      intro hempty
      rw [hempty] at hnames
      exact horder (by simpa using hnames.symm)
    obtain ⟨l1, best, l2, heq, hsel, h1, h2⟩ :=
      selectBest_spec (fun pm => pm.percentage) _ hne
    obtain ⟨hbp, hbpc⟩ := matchBuild_best userGear build best hsel
    exact ⟨l1, best, l2, by rw [hpm, heq], h1, h2, hbp, hbpc⟩
  · intro builds
    exact List.mergeSort_perm (builds.map (matchBuild userGear)) buildMatchLE

/-- A second, weaker profile over the same helm slot. -/
def starterProfile : BuildProfile :=
  { name := "Starter", gear := [("helm", temperOnlyReqs)] }

/-- A two-profile build used to exercise the build matcher. -/
def twoProfileBuild : Build :=
  { id := "b1", name := "Bash Barb", class_ := "barbarian",
    category := "endgame", source_url := "https://example.com/bash",
    tier := "S", tags := ["bash"], last_updated := "2026-01-01",
    profile_order := ["starter", "ancestral"],
    profiles := [("starter", starterProfile), ("ancestral", helmProfile)] }

/-- Witness for C1 on a two-profile build. -/
theorem C1_build_matcher_witness :
    (∀ n ∈ twoProfileBuild.profile_order,
      (List.lookup n twoProfileBuild.profiles).isSome = true) ∧
    (((matchBuild helmGear twoProfileBuild).profileMatches.map
        ProfileMatch.profileName = twoProfileBuild.profile_order ∧
      ∀ pm ∈ (matchBuild helmGear twoProfileBuild).profileMatches, ∃ p,
        List.lookup pm.profileName twoProfileBuild.profiles = some p ∧
        pm = matchProfile helmGear pm.profileName p) ∧
    (twoProfileBuild.profile_order ≠ [] →
      ∃ l1 best l2,
        (matchBuild helmGear twoProfileBuild).profileMatches =
          l1 ++ best :: l2 ∧
        (∀ q ∈ l1, q.percentage < best.percentage) ∧
        (∀ q ∈ l2, q.percentage ≤ best.percentage) ∧
        (matchBuild helmGear twoProfileBuild).bestProfile =
          best.profileName ∧
        (matchBuild helmGear twoProfileBuild).bestPercentage =
          best.percentage) ∧
    (∀ builds : List Build,
      (matchBuilds helmGear builds).Perm
        (builds.map (matchBuild helmGear)))) :=
  ⟨by decide, C1_build_matcher helmGear twoProfileBuild (by decide)⟩

/-! ## C8: empty slots and missing-critical entries -/

/-- Every missing-critical entry produced by one slot iteration names that
slot. -/
theorem processSlot_missing_slot (userGear : UserGear) (s : String)
    (r : SlotRequirements) :
    ∀ m ∈ (processSlot userGear s r).2.2.1, m.slot = s := by
  intro m hm
  rcases hcand : lookupGear userGear s with _ | ⟨it, its⟩
  · simp only [processSlot, hcand] at hm
    rcases hu : r.priority_uniques with _ | ⟨u, us⟩ <;> simp [hu] at hm
    rw [hm]
  · rcases hpb : pickBest r (it :: its) with _ | best <;>
      simp [processSlot, hcand, hpb] at hm

/-- Every missing-critical entry accumulated by the slot loop names one of the
slot keys of the gear map. -/
theorem processSlots_missing_keys (userGear : UserGear) :
    ∀ gear : List (String × SlotRequirements),
      ∀ m ∈ (processSlots userGear gear).missingCritical,
        m.slot ∈ gear.map Prod.fst
  | [] => by simp [processSlots]
  | (s, r) :: rest => by
      intro m hm
      simp only [processSlots] at hm
      rcases List.mem_append.mp hm with h1 | h2
      · simp [processSlot_missing_slot userGear s r m h1]
      · exact List.mem_cons_of_mem _
          (processSlots_missing_keys userGear rest m h2)

/-- Core of C8, by induction over the gear map: for a slot with no candidate
items, the accumulated missing-critical entries for that slot are exactly one
entry naming the top-priority unique (none when the slot requires no unique),
and the loadout records a no-item entry with score 0 and tier `none`. -/
theorem processSlots_empty_slot (userGear : UserGear) :
    ∀ (gear : List (String × SlotRequirements)) (slot : String)
      (requirements : SlotRequirements),
      (gear.map Prod.fst).Nodup →
      (slot, requirements) ∈ gear →
      lookupGear userGear slot = [] →
      ((processSlots userGear gear).missingCritical.filter
          (fun m => m.slot == slot) =
        (match requirements.priority_uniques with
          | [] => []
          | u :: _ => [{ slot := slot, item := u, importance := "high" }]) ∧
      List.lookup slot (processSlots userGear gear).recommendedLoadout =
        some { item := Option.none, score := 0,
               maxScore := calculateSlotMaxScore requirements,
               notes := "No item scanned", tier := ItemTier.none })
  | [], slot, requirements => by
      intro _ hmem _
      simp at hmem
  | (s, r) :: rest, slot, requirements => by
      intro hnodup hmem hempty
      have hnodup2 : s ∉ rest.map Prod.fst ∧ (rest.map Prod.fst).Nodup := by
        rw [List.map_cons] at hnodup
        exact List.nodup_cons.mp hnodup
      rcases List.mem_cons.mp hmem with heq | hmem2
      · injection heq with he1 he2
        subst he1
        subst he2
        constructor
        · simp only [processSlots, List.filter_append]
          have hrest : (processSlots userGear rest).missingCritical.filter
              (fun m => m.slot == slot) = [] := by
            apply List.filter_eq_nil_iff.mpr
            intro m hm
            have hk := processSlots_missing_keys userGear rest m hm
            have hne : m.slot ≠ slot := by
              intro hcontr
              exact hnodup2.1 (hcontr ▸ hk)
            simp [hne]
          rw [hrest, List.append_nil]
          simp only [processSlot, hempty]
          rcases requirements.priority_uniques with _ | ⟨u, us⟩ <;> simp
        · simp only [processSlots]
          simp [processSlot, hempty, List.lookup]
      · have hslot_mem : slot ∈ rest.map Prod.fst :=
          List.mem_map.mpr ⟨(slot, requirements), hmem2, rfl⟩
        have hne : s ≠ slot := by
          intro hcontr
          exact hnodup2.1 (hcontr ▸ hslot_mem)
        obtain ⟨ih1, ih2⟩ := processSlots_empty_slot userGear rest slot
          requirements hnodup2.2 hmem2 hempty
        constructor
        · simp only [processSlots, List.filter_append]
          have hhead : (processSlot userGear s r).2.2.1.filter
              (fun m => m.slot == slot) = [] := by
            apply List.filter_eq_nil_iff.mpr
            intro m hm
            have hms := processSlot_missing_slot userGear s r m hm
            simp [hms, hne]
          rw [hhead, List.nil_append, ih1]
        · have hbeq : (slot == s) = false :=
            beq_eq_false_iff_ne.mpr (Ne.symm hne)
          simp only [processSlots, List.lookup, hbeq]
          exact ih2

/-- C8: for a slot of the profile with zero candidate items, exactly one
missing-critical entry is recorded for that slot, naming the first priority
unique with importance "high" (and none at all when the slot requires no
unique); the loadout records a no-item entry with score 0 and tier `none`. -/
theorem C8_missing_critical (userGear : UserGear) (profileName : String)
    (profile : BuildProfile) (slot : String) (requirements : SlotRequirements)
    (hnodup : (profile.gear.map Prod.fst).Nodup)
    (hmem : (slot, requirements) ∈ profile.gear)
    (hempty : lookupGear userGear slot = []) :
    ((matchProfile userGear profileName profile).missingCritical.filter
        (fun m => m.slot == slot) =
      (match requirements.priority_uniques with
        | [] => []
        | u :: _ => [{ slot := slot, item := u, importance := "high" }])) ∧
    List.lookup slot
        (matchProfile userGear profileName profile).recommendedLoadout =
      some { item := Option.none, score := 0,
             maxScore := calculateSlotMaxScore requirements,
             notes := "No item scanned", tier := ItemTier.none } := by
  have h := processSlots_empty_slot userGear profile.gear slot requirements
    hnodup hmem hempty
  simpa [matchProfile] using h

/-- Witness for C8: an empty inventory against the helm profile records the
top-priority unique as missing and a no-item loadout entry. -/
theorem C8_missing_critical_witness :
    ((helmProfile.gear.map Prod.fst).Nodup ∧
      ("helm", bisReqs) ∈ helmProfile.gear ∧
      lookupGear [] "helm" = []) ∧
    (((matchProfile [] "ancestral" helmProfile).missingCritical.filter
        (fun m => m.slot == "helm") =
      (match bisReqs.priority_uniques with
        | [] => []
        | u :: _ => [{ slot := "helm", item := u, importance := "high" }])) ∧
    List.lookup "helm"
        (matchProfile [] "ancestral" helmProfile).recommendedLoadout =
      some { item := Option.none, score := 0,
             maxScore := calculateSlotMaxScore bisReqs,
             notes := "No item scanned", tier := ItemTier.none }) :=
  ⟨⟨by decide, by decide, by decide⟩,
    C8_missing_critical [] "ancestral" helmProfile "helm" bisReqs
      (by decide) (by decide) (by decide)⟩

/-! ## C5: the output ordering of matchBuilds -/

/-- The comparator, read back as a proposition. -/
theorem buildMatchLE_iff (a b : BuildMatch) :
    buildMatchLE a b = true ↔
      b.bestPercentage < a.bestPercentage ∨
        (a.bestPercentage = b.bestPercentage ∧ a.buildName ≤ b.buildName) := by
  simp [buildMatchLE, Bool.or_eq_true, Bool.and_eq_true, decide_eq_true_eq,
    beq_iff_eq, gt_iff_lt]

/-- The comparator is transitive. -/
theorem buildMatchLE_trans (a b c : BuildMatch)
    (h1 : buildMatchLE a b) (h2 : buildMatchLE b c) : buildMatchLE a c := by
  rw [buildMatchLE_iff] at h1 h2 ⊢
  rcases h1 with h1 | ⟨h1e, h1n⟩ <;> rcases h2 with h2 | ⟨h2e, h2n⟩
  · exact Or.inl (lt_trans h2 h1)
  · exact Or.inl (h2e ▸ h1)
  · exact Or.inl (h1e ▸ h2)
  · exact Or.inr ⟨h1e.trans h2e, le_trans h1n h2n⟩

/-- The comparator is total. -/
theorem buildMatchLE_total (a b : BuildMatch) :
    buildMatchLE a b || buildMatchLE b a := by
  rw [Bool.or_eq_true, buildMatchLE_iff, buildMatchLE_iff]
  rcases lt_trichotomy a.bestPercentage b.bestPercentage with h | h | h
  · exact Or.inr (Or.inl h)
  · rcases le_total a.buildName b.buildName with hn | hn
    · exact Or.inl (Or.inr ⟨h, hn⟩)
    · exact Or.inr (Or.inr ⟨h.symm, hn⟩)
  · exact Or.inl (Or.inl h)

/-- C5 (amended): for every adjacent pair of the `matchBuilds` output, either
the first's best percentage is strictly greater, or the percentages are equal
and the first's build name sorts alphabetically before or equal to the
second's. -/
theorem C5_sorted_output (userGear : UserGear) (builds : List Build) :
    List.Chain'
      (fun a b : BuildMatch =>
        b.bestPercentage < a.bestPercentage ∨
          (a.bestPercentage = b.bestPercentage ∧ a.buildName ≤ b.buildName))
      (matchBuilds userGear builds) := by
  have hp := List.sorted_mergeSort
    (fun x y z hxy hyz => buildMatchLE_trans x y z hxy hyz)
    (fun x y => buildMatchLE_total x y)
    (builds.map (matchBuild userGear))
  exact List.Pairwise.chain'
    (hp.imp (fun hab => (buildMatchLE_iff _ _).mp hab))

/-- A profile with no slot requirements at all. -/
def trivialProfile : BuildProfile :=
  { name := "Starter", gear := [] }

/-- A build named "A" with one empty profile. -/
def dupBuildA : Build :=
  { id := "1", name := "A", class_ := "sorcerer", category := "endgame",
    source_url := "https://example.com/a", tier := "S", tags := [],
    last_updated := "2026-01-01", profile_order := ["starter"],
    profiles := [("starter", trivialProfile)] }

/-- A second, distinct build with the same name "A". -/
def dupBuildB : Build :=
  { dupBuildA with id := "2" }

/-- The empty-profile match carries percentage 0. -/
theorem trivialProfile_percentage :
    (matchProfile [] "starter" trivialProfile).percentage = 0 := by
  simp [matchProfile, trivialProfile, processSlots, roundTo1_zero]

/-- Both duplicate builds get best percentage 0 and name "A". -/
theorem dupBuild_fields :
    (matchBuild [] dupBuildA).bestPercentage = 0 ∧
    (matchBuild [] dupBuildB).bestPercentage = 0 ∧
    (matchBuild [] dupBuildA).buildName = "A" ∧
    (matchBuild [] dupBuildB).buildName = "A" := by
  have hselA : selectBest (fun pm => pm.percentage)
      (dupBuildA.profile_order.filterMap (fun n =>
        (List.lookup n dupBuildA.profiles).map
          (fun p => matchProfile [] n p))) =
      some (matchProfile [] "starter" trivialProfile) := rfl
  have hselB : selectBest (fun pm => pm.percentage)
      (dupBuildB.profile_order.filterMap (fun n =>
        (List.lookup n dupBuildB.profiles).map
          (fun p => matchProfile [] n p))) =
      some (matchProfile [] "starter" trivialProfile) := rfl
  refine ⟨?_, ?_, rfl, rfl⟩
  · rw [(matchBuild_best [] dupBuildA _ hselA).2, trivialProfile_percentage]
  · rw [(matchBuild_best [] dupBuildB _ hselB).2, trivialProfile_percentage]

/-- Counterexample for C5 as stated: two distinct builds with the same name
and the same (zero) best percentage yield an adjacent pair for which neither
the strict percentage comparison nor the strict alphabetical comparison holds,
so the claimed strict total order fails. -/
theorem C5_counterexample :
    ¬ List.Chain'
      (fun a b : BuildMatch =>
        b.bestPercentage < a.bestPercentage ∨
          (a.bestPercentage = b.bestPercentage ∧ a.buildName < b.buildName))
      (matchBuilds [] [dupBuildA, dupBuildB]) := by
  obtain ⟨hA, hB, hnA, hnB⟩ := dupBuild_fields
  have hle : buildMatchLE (matchBuild [] dupBuildA) (matchBuild [] dupBuildB) =
      true := by
    rw [buildMatchLE_iff, hA, hB, hnA, hnB]
    exact Or.inr ⟨rfl, le_refl _⟩
  have hsorted : List.Pairwise (fun a b => buildMatchLE a b = true)
      [matchBuild [] dupBuildA, matchBuild [] dupBuildB] := by
    simp [List.pairwise_cons, hle]
  have heq : matchBuilds [] [dupBuildA, dupBuildB] =
      [matchBuild [] dupBuildA, matchBuild [] dupBuildB] := by
    unfold matchBuilds
    rw [List.map_cons, List.map_cons, List.map_nil]
    exact List.mergeSort_of_sorted hsorted
  rw [heq]
  intro hchain
  have hpair := List.chain'_cons.mp hchain
  rcases hpair.1 with h | ⟨_, h⟩
  · rw [hA, hB] at h
    exact lt_irrefl 0 h
  · rw [hnA, hnB] at h
    exact lt_irrefl "A" h

/-! ## C10: the score against the slot ceiling -/

/-- A matched priority unique requires a non-empty priority-uniques list. -/
theorem uniqueRankOf_nil (item : Item) (requirements : SlotRequirements)
    (h : requirements.priority_uniques = []) :
    uniqueRankOf item requirements = Option.none := by
  cases hb : item.is_unique <;>
    rcases hid : item.unique_id with _ | uid <;>
      simp [uniqueRankOf, hb, hid, h]

/-- The unique bonus never exceeds the 100 points budgeted for a non-empty
priority-uniques list, and is 0 without one. -/
theorem uniqueBonus_le (item : Item) (requirements : SlotRequirements) :
    uniqueBonus item requirements ≤
      (if requirements.priority_uniques = [] then (0 : ℚ) else 100) := by
  by_cases h : requirements.priority_uniques = []
  · rw [if_pos h]
    simp [uniqueBonus, uniqueRankOf_nil item requirements h]
  · rw [if_neg h]
    rcases hrank : uniqueRankOf item requirements with _ | r
    · simp only [uniqueBonus, hrank]
      norm_num
    · simp only [uniqueBonus, hrank]
      have hr : (0 : ℚ) ≤ (r : ℚ) * 20 := by positivity
      linarith

/-- The aspect bonus never exceeds the 50 points budgeted for a non-empty
priority-aspects list, and is 0 without one. -/
theorem aspectBonus_le (item : Item) (requirements : SlotRequirements) :
    aspectBonus item requirements ≤
      (if requirements.priority_aspects = [] then (0 : ℚ) else 50) := by
  by_cases h : hasAspectOf item requirements = true
  · have hne : requirements.priority_aspects ≠ [] := by
      rcases ha : item.aspect with _ | a
      · simp [hasAspectOf, ha] at h
      · simp only [hasAspectOf, ha] at h
        obtain ⟨x, hx, _⟩ := List.contains_iff_exists_mem_beq.mp h
        exact List.ne_nil_of_mem hx
    rw [if_neg hne]
    simp [aspectBonus, h]
  · have h2 : hasAspectOf item requirements = false := by
      simpa using h
    have hzero : aspectBonus item requirements = 0 := by
      simp [aspectBonus, h2]
    rw [hzero]
    split <;> norm_num

/-- With non-negative weights, the affix bonus never exceeds the
`weight × 1.5` ceiling summed over all priority affixes. -/
theorem affixBonus_le (item : Item) (requirements : SlotRequirements)
    (hw : ∀ pa ∈ requirements.priority_affixes, 0 ≤ pa.weight) :
    affixBonus item requirements ≤
      (requirements.priority_affixes.map (fun a => a.weight * 1.5)).sum := by
  apply List.sum_le_sum
  intro pa hpa
  have h0 := hw pa hpa
  by_cases hc : (allAffixNames item).contains (jsToLower pa.name) = true
  · simp only [hc, if_true]
    by_cases hg : (item.greater_affixes.map jsToLower).contains
        (jsToLower pa.name) = true
    · simp only [hg, if_true]
      nlinarith
    · have hg2 : (item.greater_affixes.map jsToLower).contains
          (jsToLower pa.name) = false := by simpa using hg
      simp only [hg2, Bool.false_eq_true, if_false]
      nlinarith
  · have hc2 : (allAffixNames item).contains (jsToLower pa.name) = false := by
      simpa using hc
    simp only [hc2, Bool.false_eq_true, if_false]
    nlinarith

/-- The temper bonus never exceeds 25 points per required temper. -/
theorem temperBonus_le (item : Item) (requirements : SlotRequirements) :
    temperBonus item requirements ≤
      25 * (requirements.required_tempers.length : ℚ) := by
  have h1 : temperBonus item requirements ≤
      (requirements.required_tempers.map (fun _ => (25 : ℚ))).sum := by
    apply List.sum_le_sum
    intro t ht
    split <;> norm_num
  have h2 : (requirements.required_tempers.map (fun _ => (25 : ℚ))).sum =
      25 * (requirements.required_tempers.length : ℚ) := by
    induction requirements.required_tempers with
    | nil => simp
    | cons t rest ih =>
        simp [ih]
        ring
  linarith [h1, h2.le, h2.ge]

/-- The item-power bonus lies in `[0, 10]`. -/
theorem ipBonus_bounds (item : Item) :
    0 ≤ ipBonus item ∧ ipBonus item ≤ 10 := by
  constructor
  · exact le_min (by norm_num) (le_max_left 0 _)
  · exact min_le_left 10 _

/-- With non-negative priority-affix weights, a score never exceeds the slot
max-score. -/
theorem scoreItemForSlot_le_max (item : Item) (requirements : SlotRequirements)
    (hw : ∀ pa ∈ requirements.priority_affixes, 0 ≤ pa.weight) :
    (scoreItemForSlot item requirements).score ≤
      calculateSlotMaxScore requirements := by
  by_cases huse : hasAnythingUseful item requirements = true
  · have h1 := uniqueBonus_le item requirements
    have h2 := aspectBonus_le item requirements
    have h3 := affixBonus_le item requirements hw
    have h4 := temperBonus_le item requirements
    have h5 := (ipBonus_bounds item).2
    have hsum : uniqueBonus item requirements + aspectBonus item requirements +
        affixBonus item requirements + temperBonus item requirements +
        ipBonus item ≤
        (if requirements.priority_uniques = [] then (0 : ℚ) else 100) +
          (if requirements.priority_aspects = [] then (0 : ℚ) else 50) +
          ((requirements.priority_affixes.map (fun a => a.weight * 1.5)).sum) +
          25 * (requirements.required_tempers.length : ℚ) + 10 := by
      linarith
    rw [calculateSlotMaxScore_eq]
    simp only [scoreItemForSlot, huse, if_true]
    exact le_trans hsum (le_max_left _ _)
  · have huse2 : hasAnythingUseful item requirements = false := by simpa using huse
    simp only [scoreItemForSlot, huse2, Bool.false_eq_true, if_false]
    exact (calculateSlotMaxScore_pos requirements).le

/-- A successful association-list lookup witnesses membership. -/
theorem lookup_mem {β : Type} :
    ∀ (l : List (String × β)) (n : String) (p : β),
      List.lookup n l = some p → (n, p) ∈ l
  | [], n, p => by simp
  | (k, v) :: rest, n, p => by
      intro h
      by_cases hk : (n == k) = true
      · have hnk : n = k := eq_of_beq hk
        simp only [List.lookup, hk] at h
        cases h
        rw [hnk]
        exact List.mem_cons_self _ _
      · have hk2 : (n == k) = false := by simpa using hk
        simp only [List.lookup, hk2] at h
        exact List.mem_cons_of_mem _ (lookup_mem rest n p h)

/-- The per-slot best score never exceeds the slot max-score (non-negative
weights). -/
theorem processSlot_score_le (userGear : UserGear) (s : String)
    (r : SlotRequirements) (hw : ∀ pa ∈ r.priority_affixes, 0 ≤ pa.weight) :
    (processSlot userGear s r).1 ≤ calculateSlotMaxScore r := by
  rcases hcand : lookupGear userGear s with _ | ⟨it, its⟩
  · simp only [processSlot, hcand]
    exact (calculateSlotMaxScore_pos r).le
  · rcases hpb : pickBest r (it :: its) with _ | best
    · simp only [processSlot, hcand, hpb]
      exact (calculateSlotMaxScore_pos r).le
    · simp only [processSlot, hcand, hpb]
      exact scoreItemForSlot_le_max best r hw

/-- The accumulated total score never exceeds the accumulated max score
(non-negative weights). -/
theorem processSlots_le (userGear : UserGear) :
    ∀ gear : List (String × SlotRequirements),
      (∀ sr ∈ gear, ∀ pa ∈ sr.2.priority_affixes, 0 ≤ pa.weight) →
      (processSlots userGear gear).totalScore ≤
        (processSlots userGear gear).maxPossibleScore
  | [] => by
      intro _
      simp [processSlots]
  | (s, r) :: rest => by
      intro hw
      have h1 := processSlot_score_le userGear s r
        (hw (s, r) (List.mem_cons_self _ _))
      have h2 := processSlots_le userGear rest
        (fun sr hsr => hw sr (List.mem_cons_of_mem _ hsr))
      simp only [processSlots]
      exact add_le_add h1 h2

/-- Rounding to one decimal place preserves the bound 100. -/
theorem roundTo1_le_100 {x : ℚ} (hx : x ≤ 100) : roundTo1 x ≤ 100 := by
  unfold roundTo1 jsRound
  have h0 : x * 10 + 1 / 2 ≤ (2001 / 2 : ℚ) := by linarith
  have h1 : ⌊x * 10 + 1 / 2⌋ ≤ 1000 := by
    have h2 := Int.floor_le_floor h0
    have h3 : ⌊(2001 / 2 : ℚ)⌋ = 1000 := by norm_num
    rw [h3] at h2
    exact h2
  have h4 : ((⌊x * 10 + 1 / 2⌋ : ℤ) : ℚ) ≤ 1000 := by exact_mod_cast h1
  linarith

/-- A profile percentage never exceeds 100 (non-negative weights). -/
theorem matchProfile_percentage_le_100 (userGear : UserGear)
    (profileName : String) (profile : BuildProfile)
    (hw : ∀ sr ∈ profile.gear, ∀ pa ∈ sr.2.priority_affixes, 0 ≤ pa.weight) :
    (matchProfile userGear profileName profile).percentage ≤ 100 := by
  have hSM := processSlots_le userGear profile.gear hw
  simp only [matchProfile]
  by_cases hM : 0 < (processSlots userGear profile.gear).maxPossibleScore
  · rw [if_pos hM]
    apply roundTo1_le_100
    have hdiv : (processSlots userGear profile.gear).totalScore /
        (processSlots userGear profile.gear).maxPossibleScore ≤ 1 :=
      (div_le_one hM).mpr hSM
    nlinarith
  · rw [if_neg hM, roundTo1_zero]
    norm_num

/-- When the best-profile selection comes back empty, the recorded best
percentage is 0. -/
theorem matchBuild_best_none (userGear : UserGear) (build : Build)
    (hsel : selectBest (fun pm => pm.percentage)
      (build.profile_order.filterMap (fun n =>
        (List.lookup n build.profiles).map
          (fun p => matchProfile userGear n p))) = Option.none) :
    (matchBuild userGear build).bestPercentage = 0 := by
  unfold matchBuild
  simp [hsel]

/-- A user inventory holding only the rank-6 unique. -/
def negGear : UserGear := [("amulet", [rank6Item])]

/-- A one-slot profile requiring the seven-entry unique list. -/
def negProfile : BuildProfile :=
  { name := "Rank6", gear := [("amulet", rank6Reqs)] }

/-- A value below `-1/20` rounds to a negative tenth. -/
theorem roundTo1_neg {x : ℚ} (h : x * 10 + 1 / 2 < 0) : roundTo1 x < 0 := by
  unfold roundTo1 jsRound
  have h1 : ⌊x * 10 + 1 / 2⌋ < 0 := by
    have := Int.floor_le (x * 10 + 1 / 2)
    have h2 : ⌊x * 10 + 1 / 2⌋ < (0 : ℤ) := by
      apply Int.floor_lt.mpr
      push_cast
      linarith
    exact h2
  have h3 : ((⌊x * 10 + 1 / 2⌋ : ℤ) : ℚ) < 0 := by exact_mod_cast h1
  linarith [div_neg_of_neg_of_pos h3 (by norm_num : (0 : ℚ) < 10)]

/-- The rank-6 item scores `-20` against the seven-unique slot: the negative
unique bonus survives to the final score. -/
theorem rank6_score_eq : (scoreItemForSlot rank6Item rank6Reqs).score = -20 := by
  have hrank : uniqueRankOf rank6Item rank6Reqs = some 6 := by decide
  have huse : hasAnythingUseful rank6Item rank6Reqs = true := by decide
  have hasp : hasAspectOf rank6Item rank6Reqs = false := by decide
  have h1 : uniqueBonus rank6Item rank6Reqs = 100 - ((6 : ℕ) : ℚ) * 20 := by
    simp [uniqueBonus, hrank]
  have h2 : aspectBonus rank6Item rank6Reqs = 0 := by
    simp [aspectBonus, hasp]
  have h3 : affixBonus rank6Item rank6Reqs = 0 := by
    simp [affixBonus, rank6Reqs]
  have h4 : temperBonus rank6Item rank6Reqs = 0 := by
    simp [temperBonus, rank6Reqs]
  have h5 : ipBonus rank6Item = 0 := by
    simp [ipBonus, rank6Item]
  simp only [scoreItemForSlot, huse, if_true]
  rw [h1, h2, h3, h4, h5]
  norm_num

/-- A score below zero is attained. -/
theorem negScore_lt_zero : (scoreItemForSlot rank6Item rank6Reqs).score < 0 := by
  rw [rank6_score_eq]
  norm_num

/-- The corresponding profile percentage is negative. -/
theorem negPercentage_lt_zero :
    (matchProfile negGear "rank6" negProfile).percentage < 0 := by
  have hlg : lookupGear negGear "amulet" = [rank6Item] := rfl
  have hpb : pickBest rank6Reqs [rank6Item] = some rank6Item := rfl
  have hmax : calculateSlotMaxScore rank6Reqs = 110 := by
    rw [calculateSlotMaxScore_eq]
    simp [rank6Reqs]
    norm_num [max_def]
  have hS : (processSlots negGear negProfile.gear).totalScore = -20 := by
    simp [processSlots, negProfile, processSlot, hlg, hpb, rank6_score_eq]
  have hM : (processSlots negGear negProfile.gear).maxPossibleScore = 110 := by
    simp [processSlots, negProfile, hmax]
  have hper : (matchProfile negGear "rank6" negProfile).percentage =
      roundTo1 ((-20) / 110 * 100) := by
    simp only [matchProfile, hS, hM]
    rw [if_pos (by norm_num : (0 : ℚ) < 110)]
  rw [hper]
  apply roundTo1_neg
  norm_num

/-- C10 (amended): when every priority-affix weight is non-negative, the score
of `scoreItemForSlot` is at most `calculateSlotMaxScore`, every profile
percentage is at most 100, and every best percentage reported by `matchBuilds`
is at most 100; meanwhile scores, and therefore percentages, can be negative
through the unclamped unique bonus. -/
theorem C10_score_bounds :
    (∀ (item : Item) (requirements : SlotRequirements),
      (∀ pa ∈ requirements.priority_affixes, 0 ≤ pa.weight) →
      (scoreItemForSlot item requirements).score ≤
        calculateSlotMaxScore requirements) ∧
    (∀ (userGear : UserGear) (profileName : String) (profile : BuildProfile),
      (∀ sr ∈ profile.gear, ∀ pa ∈ sr.2.priority_affixes, 0 ≤ pa.weight) →
      (matchProfile userGear profileName profile).percentage ≤ 100) ∧
    (∀ (userGear : UserGear) (builds : List Build),
      (∀ b ∈ builds, ∀ np ∈ b.profiles, ∀ sr ∈ np.2.gear,
        ∀ pa ∈ sr.2.priority_affixes, 0 ≤ pa.weight) →
      ∀ bm ∈ matchBuilds userGear builds,
        bm.bestPercentage ≤ 100 ∧
        ∀ pm ∈ bm.profileMatches, pm.percentage ≤ 100) ∧
    ((scoreItemForSlot rank6Item rank6Reqs).score < 0 ∧
      (matchProfile negGear "rank6" negProfile).percentage < 0) := by
  have pmBound : ∀ (userGear : UserGear) (build : Build),
      (∀ np ∈ build.profiles, ∀ sr ∈ np.2.gear,
        ∀ pa ∈ sr.2.priority_affixes, 0 ≤ pa.weight) →
      ∀ pm ∈ (matchBuild userGear build).profileMatches,
        pm.percentage ≤ 100 := by
    intro userGear build hb pm hpm
    rw [matchBuild_profileMatches] at hpm
    obtain ⟨n, _, hsome⟩ := List.mem_filterMap.mp hpm
    obtain ⟨p, hp, hmp⟩ := Option.map_eq_some'.mp hsome
    rw [← hmp]
    exact matchProfile_percentage_le_100 userGear n p
      (hb (n, p) (lookup_mem build.profiles n p hp))
  refine ⟨?_, ?_, ?_, ?_, ?_⟩
  · exact scoreItemForSlot_le_max
  · exact matchProfile_percentage_le_100
  · intro userGear builds hweights bm hbm
    have hbm2 : bm ∈ builds.map (matchBuild userGear) :=
      List.mem_mergeSort.mp hbm
    obtain ⟨b, hb, rfl⟩ := List.mem_map.mp hbm2
    have hbw := hweights b hb
    constructor
    · rcases hsel : selectBest (fun pm => pm.percentage)
          (b.profile_order.filterMap (fun n =>
            (List.lookup n b.profiles).map
              (fun p => matchProfile userGear n p))) with _ | best
      · rw [matchBuild_best_none userGear b hsel]
        norm_num
      · rw [(matchBuild_best userGear b best hsel).2]
        have hmem : best ∈ (matchBuild userGear b).profileMatches := by
          rw [matchBuild_profileMatches]
          exact selectBest_mem _ _ _ hsel
        exact pmBound userGear b hbw best hmem
    · exact pmBound userGear b hbw
  · exact negScore_lt_zero
  · exact negPercentage_lt_zero

/-- Slot requirements with a priority unique and one negative-weight priority
affix. -/
def negWeightReqs : SlotRequirements :=
  { slot := "helm", priority_uniques := ["u"], priority_aspects := [],
    priority_affixes := [{ name := "a", weight := -10 }],
    required_tempers := [] }

/-- A rank-0 unique item of maximal power that also carries the
negative-weight affix. -/
def negWeightItem : Item :=
  { name := "NW", type := "helm", item_power := 925, is_unique := true,
    unique_id := some "u", affixes := [{ name := "a", value := 1 }],
    tempered_affixes := [], greater_affixes := [], aspect := Option.none,
    class_restriction := Option.none }

/-- Counterexample for C10 as stated: with a negative-weight priority affix
the max-score counts `-15` for the affix while the item only incurs `-10`, so
the score 100 exceeds the slot max-score 95. -/
theorem C10_counterexample :
    calculateSlotMaxScore negWeightReqs <
      (scoreItemForSlot negWeightItem negWeightReqs).score := by
  have hmax : calculateSlotMaxScore negWeightReqs = 95 := by
    rw [calculateSlotMaxScore_eq]
    simp [negWeightReqs]
    norm_num [max_def]
  have hrank : uniqueRankOf negWeightItem negWeightReqs = some 0 := by decide
  have huse : hasAnythingUseful negWeightItem negWeightReqs = true := by decide
  have hasp : hasAspectOf negWeightItem negWeightReqs = false := by decide
  have h1 : uniqueBonus negWeightItem negWeightReqs = 100 := by
    simp [uniqueBonus, hrank]
  have h2 : aspectBonus negWeightItem negWeightReqs = 0 := by
    simp [aspectBonus, hasp]
  have h3 : affixBonus negWeightItem negWeightReqs = -10 := by
    have hc : jsToLower "a" ∈ allAffixNames negWeightItem := by decide
    have hg : ¬ ∃ a ∈ negWeightItem.greater_affixes,
        jsToLower a = jsToLower "a" := by
      simp [negWeightItem]
    simp [affixBonus, negWeightReqs, hc, hg]
  have h4 : temperBonus negWeightItem negWeightReqs = 0 := by
    simp [temperBonus, negWeightReqs]
  have h5 : ipBonus negWeightItem = 10 := by
    simp [ipBonus, negWeightItem]
    norm_num [max_def, min_def]
  have hscore : (scoreItemForSlot negWeightItem negWeightReqs).score = 100 := by
    simp only [scoreItemForSlot, huse, if_true]
    rw [h1, h2, h3, h4, h5]
    norm_num
  rw [hmax, hscore]
  norm_num

/-- Witness for the amended C10 at concrete non-negative-weight inputs. -/
theorem C10_score_bounds_witness :
    ((∀ pa ∈ bisReqs.priority_affixes, 0 ≤ pa.weight) ∧
      (scoreItemForSlot bisItem bisReqs).score ≤
        calculateSlotMaxScore bisReqs) ∧
    ((∀ sr ∈ helmProfile.gear, ∀ pa ∈ sr.2.priority_affixes, 0 ≤ pa.weight) ∧
      (matchProfile helmGear "ancestral" helmProfile).percentage ≤ 100) := by
  have hw1 : ∀ pa ∈ bisReqs.priority_affixes, 0 ≤ pa.weight := by
    norm_num [bisReqs]
  have hw2 : ∀ sr ∈ helmProfile.gear, ∀ pa ∈ sr.2.priority_affixes,
      0 ≤ pa.weight := by
    norm_num [helmProfile, bisReqs]
  exact ⟨⟨hw1, C10_score_bounds.1 bisItem bisReqs hw1⟩,
    ⟨hw2, C10_score_bounds.2.1 helmGear "ancestral" helmProfile hw2⟩⟩

end D4
